import Mathlib

/-!
Verification of the storage-provider core of
`src/clusterfuzz/_internal/google_cloud_utils/storage.py`.

The Python source is shallowly embedded: strings are lists of characters,
Python exceptions become `Except` error values, the in-place mutation of
IAM-policy dictionaries becomes explicit state passing, and the filesystem
and remote object store are explicit finite maps.  Network success/failure
of individual signed-URL transfers is abstracted by a boolean oracle, and
the wall-clock rounds of `concurrent.futures.wait` become an explicit list
of per-round completion sets.
-/

namespace Storage

/-- Strings of the Python source are modelled as lists of characters. -/
abbrev Str := List Char

/-- Python exceptions raised by the path codec: `ValueError` models the
unpacking failure of `filtered_path.split('/', 1)` when the string contains
no `'/'`. -/
inductive PyErr where
  | valueError
deriving DecidableEq

/-- Source constant `GS_PREFIX = 'gs:/'` (storage.py line 77). -/
def GS_PREFIX : Str := ['g', 's', ':', '/']

/-- Modelled from the spec: helper `utils.strip_from_left` lives in
`clusterfuzz._internal.base.utils`, which is not part of the excerpted
sources.  Per the spec's path-codec contract (section 4.1) it removes the
required scheme prefix from the left of the address string when present and
leaves the string unchanged otherwise. -/
def strip_from_left (s pre : Str) : Str :=
  if pre.isPrefixOf s then s.drop pre.length else s

/-- Python `s.split(sep, 1)`: `some (before, after)` splits at the first
occurrence of `sep`; `none` when `sep` does not occur (in which case the
two-name unpacking in the source raises `ValueError`). -/
def splitOnce (sep : Char) : Str → Option (Str × Str)
  | [] => none
  | c :: rest =>
    if c = sep then some ([], rest)
    else
      match splitOnce sep rest with
      | none => none
      | some (a, b) => some (c :: a, b)

/-- Source `get_bucket_name_and_path` (storage.py lines 827-838).  The
`.error .valueError` result models the `ValueError` raised by unpacking
`filtered_path.split('/', 1)` into two names when there is no `'/'`. -/
def get_bucket_name_and_path (cloud_storage_file_path : Str) :
    Except PyErr (Str × Str) :=
  match splitOnce '/' (strip_from_left cloud_storage_file_path GS_PREFIX) with
  | none => .error .valueError
  | some (_, bucket_name_and_path) =>
    match splitOnce '/' bucket_name_and_path with
    | some (bucket_name, path) => .ok (bucket_name, path)
    | none => .ok (bucket_name_and_path, [])

/-- Source `get_cloud_storage_file_path` (storage.py lines 841-843):
`GS_PREFIX + '/' + bucket + '/' + path`. -/
def get_cloud_storage_file_path (bucket path : Str) : Str :=
  GS_PREFIX ++ ('/' :: (bucket ++ ('/' :: path)))

theorem splitOnce_cons_sep (sep : Char) (rest : Str) :
    splitOnce sep (sep :: rest) = some ([], rest) := by
  simp [splitOnce]

theorem splitOnce_append_of_not_mem {sep : Char} {a : Str} (b : Str)
    (h : sep ∉ a) : splitOnce sep (a ++ sep :: b) = some (a, b) := by
  induction a with
  | nil => simp [splitOnce]
  | cons c rest ih =>
    simp only [List.mem_cons, not_or] at h
    have hc : ¬ c = sep := fun hcc => h.1 hcc.symm
    simp [splitOnce, hc, ih h.2]

theorem splitOnce_eq_none_iff {sep : Char} {s : Str} :
    splitOnce sep s = none ↔ sep ∉ s := by
  induction s with
  | nil => simp [splitOnce]
  | cons c rest ih =>
    by_cases hc : c = sep
    · subst hc
      simp [splitOnce]
    · have hc' : ¬ sep = c := fun hcc => hc hcc.symm
      simp only [splitOnce, if_neg hc, List.mem_cons, not_or]
      cases h' : splitOnce sep rest with
      | none =>
        rw [h'] at ih
        simp [hc', ih.mp rfl]
      | some ab =>
        rw [h'] at ih
        have hmem : sep ∈ rest := by
          by_contra hn
          exact Option.noConfusion (ih.mpr hn)
        simp [hmem]

theorem splitOnce_eq_some {sep : Char} {s a b : Str}
    (h : splitOnce sep s = some (a, b)) : sep ∉ a ∧ s = a ++ sep :: b := by
  induction s generalizing a b with
  | nil => exact absurd h (by simp [splitOnce])
  | cons c rest ih =>
    by_cases hc : c = sep
    · subst hc
      have h2 : (some (([] : Str), rest) : Option (Str × Str)) = some (a, b) := by
        simpa [splitOnce] using h
      have h3 := Option.some.inj h2
      have ha : ([] : Str) = a := congrArg Prod.fst h3
      have hb : rest = b := congrArg Prod.snd h3
      subst hb
      rw [← ha]
      simp
    · simp only [splitOnce, if_neg hc] at h
      cases h' : splitOnce sep rest with
      | none =>
        rw [h'] at h
        exact Option.noConfusion h
      | some ab =>
        obtain ⟨a', b'⟩ := ab
        rw [h'] at h
        simp only [Option.some.injEq, Prod.mk.injEq] at h
        obtain ⟨ha, hb⟩ := h
        obtain ⟨hna, hs⟩ := ih h'
        subst hb
        rw [← ha]
        refine ⟨?_, by simp [hs]⟩
        intro hmem
        rcases List.mem_cons.mp hmem with h1 | h2
        · exact hc h1.symm
        · exact hna h2

theorem strip_of_append (pre rest : Str) :
    strip_from_left (pre ++ rest) pre = rest := by
  have hpre : pre.isPrefixOf (pre ++ rest) = true := by
    rw [List.isPrefixOf_iff_prefix]
    exact List.prefix_append pre rest
  simp [strip_from_left, hpre]

/-- Core round-trip lemma: for a bucket name containing no slash, parsing
the built path recovers the pair exactly. -/
theorem parse_of_build {bucket : Str} (path : Str) (h : '/' ∉ bucket) :
    get_bucket_name_and_path (get_cloud_storage_file_path bucket path) =
      .ok (bucket, path) := by
  simp [get_bucket_name_and_path, get_cloud_storage_file_path, strip_of_append,
    splitOnce_cons_sep, splitOnce_append_of_not_mem path h]

/-- Inversion: a successful parse always yields a slash-free bucket name. -/
theorem parse_bucket_no_slash {P bucket path : Str}
    (h : get_bucket_name_and_path P = .ok (bucket, path)) : '/' ∉ bucket := by
  unfold get_bucket_name_and_path at h
  cases h1 : splitOnce '/' (strip_from_left P GS_PREFIX) with
  | none => simp [h1] at h
  | some pr =>
    obtain ⟨_, rest⟩ := pr
    simp only [h1] at h
    cases h2 : splitOnce '/' rest with
    | none =>
      simp only [h2, Except.ok.injEq, Prod.mk.injEq] at h
      rw [← h.1]
      exact splitOnce_eq_none_iff.mp h2
    | some bp =>
      obtain ⟨b', p'⟩ := bp
      simp only [h2, Except.ok.injEq, Prod.mk.injEq] at h
      rw [← h.1]
      exact (splitOnce_eq_some h2).1

/-- C3: for every slash-free bucket name `b` and object path `p` not
starting with a slash, `parse (build b p) = (b, p)`; a path with no object
segment parses to the empty object path (never an absent value); and for
every parseable path `P`, `parse (build (parse P)) = parse P`. -/
theorem claim_C3 :
    (∀ bucket path : Str, '/' ∉ bucket → path.head? ≠ some '/' →
      get_bucket_name_and_path (get_cloud_storage_file_path bucket path) =
        .ok (bucket, path)) ∧
    (∀ bucket : Str, '/' ∉ bucket →
      get_bucket_name_and_path (GS_PREFIX ++ '/' :: bucket) =
        .ok (bucket, [])) ∧
    (∀ P bucket path : Str,
      get_bucket_name_and_path P = .ok (bucket, path) →
      get_bucket_name_and_path (get_cloud_storage_file_path bucket path) =
        .ok (bucket, path)) := by
  refine ⟨fun bucket path hb _ => parse_of_build path hb, ?_, ?_⟩
  · intro bucket hb
    simp [get_bucket_name_and_path, strip_of_append, splitOnce_cons_sep,
      splitOnce_eq_none_iff.mpr hb]
  · intro P bucket path h
    exact parse_of_build path (parse_bucket_no_slash h)

theorem claim_C3_witness :
    get_bucket_name_and_path
        (get_cloud_storage_file_path ['b', 'k'] ['a', '/', 'c']) =
      .ok (['b', 'k'], ['a', '/', 'c']) ∧
    get_bucket_name_and_path (GS_PREFIX ++ '/' :: ['b', 'k']) =
      .ok (['b', 'k'], []) :=
  ⟨claim_C3.1 ['b', 'k'] ['a', '/', 'c'] (by decide) (by decide),
    claim_C3.2.1 ['b', 'k'] (by decide)⟩

/-- C8 counterexample: the input string `"a/b"` does not contain the
required `gs:/` scheme prefix, yet `get_bucket_name_and_path` does not fail
with any error — it returns the pair `("b", "")` (the text before the first
slash is silently discarded). -/
theorem claim_C8_counterexample :
    GS_PREFIX.isPrefixOf ['a', '/', 'b'] = false ∧
    get_bucket_name_and_path ['a', '/', 'b'] = .ok (['b'], []) :=
  ⟨by decide, rfl⟩

/-- C8 (amended): parsing fails — with the `ValueError` of the two-name
unpacking, the source never mentions a `MalformedPathError` — exactly for
inputs that contain no `'/'` at all after stripping the scheme prefix from
the left; any input containing a `'/'` yields a `(bucket, objectPath)`
pair even when the scheme prefix is absent. -/
theorem claim_C8 :
    ∀ s : Str,
      get_bucket_name_and_path s = .error .valueError ↔
        '/' ∉ strip_from_left s GS_PREFIX := by
  intro s
  unfold get_bucket_name_and_path
  cases h1 : splitOnce '/' (strip_from_left s GS_PREFIX) with
  | none => simpa using splitOnce_eq_none_iff.mp h1
  | some pr =>
    obtain ⟨_, rest⟩ := pr
    have hmem : '/' ∈ strip_from_left s GS_PREFIX := by
      by_contra hn
      rw [splitOnce_eq_none_iff.mpr hn] at h1
      exact Option.noConfusion h1
    cases h2 : splitOnce '/' rest with
    | none => simp [h2, hmem]
    | some bp =>
      obtain ⟨b', p'⟩ := bp
      simp [h2, hmem]

theorem claim_C8_witness :
    get_bucket_name_and_path ['g', 's', ':', '/', '/'] ≠
      .error .valueError :=
  fun h => absurd ((claim_C8 _).mp h) (by decide)

/-- Boolean string comparison modelling Python's string ordering
(lexicographic by code point); used only to model `sorted`. -/
def strLeB : Str → Str → Bool
  | [], _ => true
  | _ :: _, [] => false
  | a :: as, b :: bs => if a = b then strLeB as bs else Nat.blt a.toNat b.toNat

/-- Insertion step of an executable insertion sort. -/
def orderedInsertB (le : α → α → Bool) (x : α) : List α → List α
  | [] => [x]
  | y :: ys => if le x y then x :: y :: ys else y :: orderedInsertB le x ys

/-- Executable insertion sort modelling Python `sorted`. -/
def sortB (le : α → α → Bool) : List α → List α
  | [] => []
  | x :: xs => orderedInsertB le x (sortB le xs)

theorem orderedInsertB_perm (le : α → α → Bool) (x : α) (l : List α) :
    (orderedInsertB le x l).Perm (x :: l) := by
  induction l with
  | nil => exact List.Perm.refl _
  | cons y ys ih =>
    by_cases h : le x y = true
    · simp [orderedInsertB, h]
    · simp only [orderedInsertB, if_neg h]
      exact (ih.cons y).trans (List.Perm.swap x y ys)

theorem sortB_perm (le : α → α → Bool) (l : List α) : (sortB le l).Perm l := by
  induction l with
  | nil => exact List.Perm.refl _
  | cons x xs ih => exact (orderedInsertB_perm le x (sortB le xs)).trans (ih.cons x)

/-- Python `sorted(list(set(l)))` from `set_bucket_iam_policy` line 917:
duplicate removal followed by sorting. -/
def py_sorted_set (l : List Str) : List Str := sortB strLeB l.dedup

theorem py_sorted_set_nodup (l : List Str) : (py_sorted_set l).Nodup :=
  ((sortB_perm strLeB l.dedup).nodup_iff).mpr (List.nodup_dedup l)

/-- One entry of `iam_policy['bindings']`: a dict holding a `role` string
and a `members` list. -/
structure Binding where
  role : Str
  members : List Str
deriving DecidableEq

/-- An IAM policy is modelled by its `bindings` list, the only key of the
policy dict that the source reads or writes. -/
abbrev IamPolicy := List Binding

/-- Source `set_bucket_iam_policy` (storage.py lines 909-940), modelled as
the policy body committed by `client.buckets().setIamPolicy`: the source
first takes `copy.deepcopy(iam_policy)` (so the caller's object is never
mutated — value semantics here), then replaces each binding's members by
`sorted(list(set(...)))`, then drops every binding whose member list became
empty.  The HTTP commit and its `HttpError` logging are external. -/
def set_bucket_iam_policy (iam_policy : IamPolicy) : IamPolicy :=
  let filtered_iam_policy := iam_policy.map fun binding =>
    { binding with members := py_sorted_set binding.members }
  filtered_iam_policy.filter fun b => !b.members.isEmpty

/-- Source `get_bucket_iam_binding` (lines 870-875): the first binding
matching the role, else `None`. -/
def get_bucket_iam_binding (iam_policy : IamPolicy) (role : Str) :
    Option Binding :=
  iam_policy.find? fun binding => binding.role == role

/-- In-place `binding['members'].append(member)` on the binding found by
`get_bucket_iam_binding` (the first role match), as explicit state
passing. -/
def append_member : IamPolicy → Str → Str → IamPolicy
  | [], _, _ => []
  | b :: rest, role, member =>
    if b.role == role then { b with members := b.members ++ [member] } :: rest
    else b :: append_member rest role member

/-- In-place `binding['members'].pop()` on the same binding, as explicit
state passing. -/
def pop_member : IamPolicy → Str → IamPolicy
  | [], _ => []
  | b :: rest, role =>
    if b.role == role then { b with members := b.members.dropLast } :: rest
    else b :: pop_member rest role

/-- Source `add_single_bucket_iam` (lines 857-867) with the in-place list
mutation made explicit.  `none` models the `TypeError` raised by
`binding['members'].append` when `get_bucket_iam_binding` returns `None`;
otherwise the value is `(returned result, caller's policy after the
function returns)`. -/
def add_single_bucket_iam (iam_policy : IamPolicy) (role member : Str) :
    Option (IamPolicy × IamPolicy) :=
  match get_bucket_iam_binding iam_policy role with
  | none => none
  | some _ =>
    let policy1 := append_member iam_policy role member
    let result := set_bucket_iam_policy policy1
    some (result, pop_member policy1 role)

theorem count_one_of_nodup {l : List Str} (h : l.Nodup) {m : Str}
    (hm : m ∈ l) : l.count m = 1 := by
  induction l with
  | nil => cases hm
  | cons a l ih =>
    have h' := List.nodup_cons.mp h
    rw [List.count_cons]
    rcases List.mem_cons.mp hm with rfl | hm'
    · rw [List.count_eq_zero.mpr h'.1]
      simp
    · have hma : m ≠ a := fun hc => by
        rw [hc] at hm'
        exact h'.1 hm'
      rw [ih h'.2 hm']
      simp [hma, Ne.symm hma]

/-- C6: the policy body committed by `set_bucket_iam_policy` has no
duplicate members inside any binding (each member counts exactly once, so
a member added twice shows once) and contains no binding with an empty
member list. -/
theorem claim_C6 :
    ∀ (iam_policy : IamPolicy) (b : Binding),
      b ∈ set_bucket_iam_policy iam_policy →
      b.members.Nodup ∧ b.members ≠ [] ∧
        ∀ m ∈ b.members, b.members.count m = 1 := by
  intro iam_policy b hb
  simp only [set_bucket_iam_policy, List.mem_filter, List.mem_map] at hb
  obtain ⟨⟨b0, _, hb0⟩, hne⟩ := hb
  have hnodup : b.members.Nodup := by
    rw [← hb0]
    exact py_sorted_set_nodup b0.members
  have hne' : b.members ≠ [] := by
    intro hcontra
    rw [hcontra] at hne
    exact Bool.noConfusion hne
  exact ⟨hnodup, hne', fun m hm => count_one_of_nodup hnodup hm⟩

theorem claim_C6_witness :
    (Binding.mk ['r'] [['a'], ['b']]) ∈
      set_bucket_iam_policy
        [Binding.mk ['r'] [['a'], ['a'], ['b']], Binding.mk ['s'] []] ∧
    ([['a'], ['b']] : List Str).Nodup ∧ ([['a'], ['b']] : List Str) ≠ [] ∧
      ∀ m ∈ ([['a'], ['b']] : List Str), List.count m [['a'], ['b']] = 1 :=
  ⟨by decide,
    claim_C6 [Binding.mk ['r'] [['a'], ['a'], ['b']], Binding.mk ['s'] []]
      (Binding.mk ['r'] [['a'], ['b']]) (by decide)⟩

theorem pop_append_member (iam_policy : IamPolicy) (role member : Str) :
    pop_member (append_member iam_policy role member) role = iam_policy := by
  induction iam_policy with
  | nil => rfl
  | cons b rest ih =>
    by_cases h : b.role = role
    · obtain ⟨r, ms⟩ := b
      simp only at h
      subst h
      simp [append_member, pop_member]
    · simp [append_member, pop_member, h, ih]

/-- C10: `set_bucket_iam_policy` never mutates the caller's policy (the
dedup/drop run on a deep copy only), and `add_single_bucket_iam` returns
the caller's policy to exactly its original value (the appended member is
popped again), while committing the filtered copy of the appended
policy. -/
theorem claim_C10 :
    ∀ (iam_policy : IamPolicy) (role member : Str) (b : Binding),
      get_bucket_iam_binding iam_policy role = some b →
      add_single_bucket_iam iam_policy role member =
        some (set_bucket_iam_policy (append_member iam_policy role member),
          iam_policy) := by
  intro iam_policy role member b h
  simp only [add_single_bucket_iam, h, pop_append_member]

theorem claim_C10_witness :
    add_single_bucket_iam [Binding.mk ['r'] [['a']]] ['r'] ['m'] =
      some (set_bucket_iam_policy (append_member [Binding.mk ['r'] [['a']]]
        ['r'] ['m']), [Binding.mk ['r'] [['a']]]) :=
  claim_C10 [Binding.mk ['r'] [['a']]] ['r'] ['m']
    (Binding.mk ['r'] [['a']]) (by decide)

/-- HTTP response as observed by `_download_url`: `ok` is `response.ok`,
`status_code` and `text` are the corresponding attributes, `content` the
payload bytes, and `xmlCode` abstracts the XML probe
`ET.fromstring(response.text).find('Code').text` — `none` when the body is
not parseable XML or holds no `Code` element (the bare `except: pass` in
the source). -/
structure HttpResponse where
  ok : Bool
  status_code : Nat
  text : Str
  content : Str
  xmlCode : Option Str
deriving DecidableEq

/-- Errors raised by `_download_url`: `expiredSignedUrl` models the source
class `ExpiredSignedUrlError(message, url, response_text)` (storage.py
lines 1246-1252), carrying the original URL and the backend response
body; `runtimeError` models the generic
`RuntimeError('Request to %s failed. Code: %d. Reason: %s')` with its three
format arguments. -/
inductive DownloadError where
  | expiredSignedUrl (message url response_text : Str)
  | runtimeError (url : Str) (status_code : Nat) (reason : Str)
deriving DecidableEq

/-- Message carried by the expired-URL error in the source. -/
def expiredTokenMessage : Str := "Expired token for signed URL.".toList

/-- Source `_download_url` (storage.py lines 1256-1279).  `test_env` is
`_integration_test_env_doesnt_support_signed_urls()` and `read_data_fn`
abstracts the `read_data` passthrough used in that environment; the
`requests.get` response for `url` is passed explicitly.  On a non-ok
response the source tries to extract the XML `Code` element: the value
`ExpiredToken` raises `ExpiredSignedUrlError` (re-raised past the bare
except), anything else falls through to the generic `RuntimeError`. -/
def _download_url (test_env : Bool) (read_data_fn : Str → Str)
    (response : HttpResponse) (url : Str) : Except DownloadError Str :=
  if test_env then .ok (read_data_fn url)
  else if response.ok then .ok response.content
  else
    match response.xmlCode with
    | some code =>
      if code = "ExpiredToken".toList then
        .error (.expiredSignedUrl expiredTokenMessage url response.text)
      else .error (.runtimeError url response.status_code response.text)
    | none => .error (.runtimeError url response.status_code response.text)

/-- C2: for a non-success response whose error body embeds the
`ExpiredToken` code, `_download_url` raises the distinct expired-capability
error carrying the original URL and the response body; every other
non-success response raises the generic runtime error instead, and the two
error shapes are distinct. -/
theorem claim_C2 :
    ∀ (read_data_fn : Str → Str) (response : HttpResponse) (url : Str),
      response.ok = false →
      ((response.xmlCode = some ("ExpiredToken".toList) →
        _download_url false read_data_fn response url =
          .error (.expiredSignedUrl expiredTokenMessage url response.text)) ∧
       (response.xmlCode ≠ some ("ExpiredToken".toList) →
        _download_url false read_data_fn response url =
          .error (.runtimeError url response.status_code response.text)) ∧
       (∀ m u t u' s r, DownloadError.expiredSignedUrl m u t ≠
          DownloadError.runtimeError u' s r)) := by
  intro read_data_fn response url hok
  refine ⟨?_, ?_, fun m u t u' s r h => DownloadError.noConfusion h⟩
  · intro hcode
    simp [_download_url, hok, hcode]
  · intro hcode
    cases hx : response.xmlCode with
    | none => simp [_download_url, hok, hx]
    | some code =>
      rw [hx] at hcode
      have hne : ¬ code = "ExpiredToken".toList := fun hc => hcode (by rw [hc])
      simp [_download_url, hok, hx]
      simpa using hne

theorem claim_C2_witness :
    _download_url false (fun _ => [])
        (HttpResponse.mk false 400 ['x'] [] (some ("ExpiredToken".toList)))
        ['u'] =
      .error (.expiredSignedUrl expiredTokenMessage ['u'] ['x']) ∧
    _download_url false (fun _ => [])
        (HttpResponse.mk false 500 ['y'] [] none) ['u'] =
      .error (.runtimeError ['u'] 500 ['y']) :=
  ⟨(claim_C2 (fun _ => [])
      (HttpResponse.mk false 400 ['x'] [] (some ("ExpiredToken".toList)))
      ['u'] rfl).1 rfl,
    (claim_C2 (fun _ => []) (HttpResponse.mk false 500 ['y'] [] none)
      ['u'] rfl).2.1 (by decide)⟩

/-- Source namedtuple `SignedUrlDownloadResult(url, filepath)` (line
117). -/
structure SignedUrlDownloadResult where
  url : Str
  filepath : Str
deriving DecidableEq

/-- Python `os.path.join(directory, f'{basename}-{idx}')` used by
`download_signed_urls`; `basename` is the random `uuid.uuid4().hex`,
passed in as a parameter. -/
def download_filepath (directory basename : Str) (idx : Nat) : Str :=
  directory ++ ('/' :: (basename ++ ('-' :: (Nat.repr idx).toList)))

/-- The list `filepaths` built by `download_signed_urls` for `n` urls. -/
def download_filepaths (directory basename : Str) (n : Nat) : List Str :=
  (List.range n).map (download_filepath directory basename)

/-- Source `download_signed_urls` (storage.py lines 1371-1404), with the
per-item transfer outcome abstracted by the oracle `dl`: `dl (url, path)`
is `True` iff `_error_tolerant_download_signed_url_to_file` succeeds
(that helper returns `False` exactly when `download_signed_url_to_file`
raises).  The synchronous pool path and the async path satisfy the same
per-item contract, so one oracle covers both; `os.makedirs` and logging
are external effects outside the model. -/
def download_signed_urls (dl : Str × Str → Bool) (basename : Str)
    (signed_urls : List Str) (directory : Str) :
    List SignedUrlDownloadResult :=
  if signed_urls.isEmpty then []
  else
    let filepaths := download_filepaths directory basename signed_urls.length
    let urls_and_filepaths := signed_urls.zip filepaths
    let results := urls_and_filepaths.map dl
    results.enum.filterMap fun ir =>
      if ir.2 then (urls_and_filepaths[ir.1]?).map fun uf =>
        SignedUrlDownloadResult.mk uf.1 uf.2
      else none

/-- Source `upload_signed_urls` (storage.py lines 1356-1364), with the
oracle `ul (url, file)` standing for the outcome of
`_error_tolerant_upload_signed_url`, which returns `False` exactly when
the upload of that item raises. -/
def upload_signed_urls (ul : Str × Str → Bool) (signed_urls files : List Str) :
    List Bool :=
  if signed_urls.isEmpty then []
  else (signed_urls.zip files).map ul

theorem enumFrom_filterMap_index (p : α → Bool) (g : α → β)
    (full : List α) :
    ∀ (uf : List α) (k : Nat), full.drop k = uf →
    ((uf.map p).enumFrom k).filterMap (fun ir =>
        if ir.2 then (full[ir.1]?).map g else none) =
      (uf.filter p).map g := by
  intro uf
  induction uf with
  | nil => intro k _; rfl
  | cons x rest ih =>
    intro k hk
    have hx : full[k]? = some x := by
      have h0 : (full.drop k)[0]? = full[k + 0]? := List.getElem?_drop full k 0
      rw [hk] at h0
      simpa using h0.symm
    have hrest : full.drop (k + 1) = rest := by
      have h1 : (full.drop k).drop 1 = full.drop (k + 1) := List.drop_drop 1 k full
      rw [hk] at h1
      simpa using h1.symm
    by_cases hpx : p x = true
    · simp [List.enumFrom_cons, List.filterMap_cons, List.filter_cons, hpx, hx,
        ih (k + 1) hrest]
    · simp [List.enumFrom_cons, List.filterMap_cons, List.filter_cons, hpx,
        ih (k + 1) hrest]

/-- C1: the batch download returns exactly the successful items — each
pairing the input URL with its generated destination path, failures
silently dropped — so its length is the success count; the batch upload
returns one boolean per input item (lengths agree) and position `i` holds
exactly the outcome of item `i`; and every returned download result is a
succeeding (url, filepath) pair of the batch. -/
theorem claim_C1 :
    ∀ (dl ul : Str × Str → Bool) (basename directory : Str)
      (signed_urls files : List Str),
      files.length = signed_urls.length →
      (download_signed_urls dl basename signed_urls directory =
        ((signed_urls.zip (download_filepaths directory basename
            signed_urls.length)).filter dl).map
          fun uf => SignedUrlDownloadResult.mk uf.1 uf.2) ∧
      ((download_signed_urls dl basename signed_urls directory).length =
        (signed_urls.zip (download_filepaths directory basename
          signed_urls.length)).countP dl) ∧
      ((upload_signed_urls ul signed_urls files).length =
        signed_urls.length) ∧
      (∀ (i : Nat) (u f : Str), signed_urls[i]? = some u →
        files[i]? = some f →
        (upload_signed_urls ul signed_urls files)[i]? = some (ul (u, f))) ∧
      (∀ r ∈ download_signed_urls dl basename signed_urls directory,
        dl (r.url, r.filepath) = true ∧ (r.url, r.filepath) ∈
          signed_urls.zip (download_filepaths directory basename
            signed_urls.length)) := by
  intro dl ul basename directory signed_urls files hlen
  have hdl : download_signed_urls dl basename signed_urls directory =
      ((signed_urls.zip (download_filepaths directory basename
          signed_urls.length)).filter dl).map
        fun uf => SignedUrlDownloadResult.mk uf.1 uf.2 := by
    by_cases hemp : signed_urls.isEmpty = true
    · rw [List.isEmpty_iff] at hemp
      subst hemp
      rfl
    · unfold download_signed_urls
      rw [if_neg hemp]
      exact enumFrom_filterMap_index dl
        (fun uf => SignedUrlDownloadResult.mk uf.1 uf.2)
        (signed_urls.zip (download_filepaths directory basename
          signed_urls.length)) _ 0 rfl
  refine ⟨hdl, ?_, ?_, ?_, ?_⟩
  · rw [hdl, List.length_map, List.countP_eq_length_filter]
  · by_cases hemp : signed_urls.isEmpty = true
    · rw [List.isEmpty_iff] at hemp
      subst hemp
      rfl
    · unfold upload_signed_urls
      rw [if_neg hemp, List.length_map, List.length_zip, hlen,
        Nat.min_self]
  · intro i u f hu hf
    have hzip : (signed_urls.zip files)[i]? = some (u, f) :=
      List.getElem?_zip_eq_some.mpr ⟨hu, hf⟩
    have hemp : ¬ signed_urls.isEmpty = true := by
      intro hc
      rw [List.isEmpty_iff] at hc
      subst hc
      simp at hu
    unfold upload_signed_urls
    rw [if_neg hemp, List.getElem?_map, hzip]
    rfl
  · intro r hr
    rw [hdl] at hr
    obtain ⟨uf, hmem, hmk⟩ := List.mem_map.mp hr
    obtain ⟨hin, hp⟩ := List.mem_filter.mp hmem
    have h1 : r.url = uf.1 := by rw [← hmk]
    have h2 : r.filepath = uf.2 := by rw [← hmk]
    rw [h1, h2]
    exact ⟨hp, hin⟩

def wit_urls : List Str := [['u', '1'], ['u', '2'], ['u', '3'], ['u', '4'],
  ['u', '5']]

def wit_files : List Str := [['f', '1'], ['f', '2'], ['f', '3'], ['f', '4'],
  ['f', '5']]

/-- Oracle for the witness: item 3 (index 2) fails, all others succeed. -/
def wit_oracle (up : Str × Str) : Bool := !(up.1 == ['u', '3'])

theorem claim_C1_witness :
    (download_signed_urls wit_oracle ['b'] wit_urls ['d']).length = 4 ∧
    (upload_signed_urls wit_oracle wit_urls wit_files).length = 5 ∧
    (upload_signed_urls wit_oracle wit_urls wit_files)[2]? = some false := by
  have h := claim_C1 wit_oracle wit_oracle ['b'] ['d'] wit_urls wit_files
    (by decide)
  refine ⟨?_, h.2.2.1, ?_⟩
  · rw [h.2.1]
    decide
  · rw [h.2.2.2.1 2 ['u', '3'] ['f', '3'] (by decide) (by decide)]
    rfl

/-- Payload bytes of an object, kept opaque. -/
abbrev Data := Str

/-- The remote object store behind the GCS client: a finite association
list from (bucket, object path) to contents. -/
abbrev GcsStore := List ((Str × Str) × Data)

/-- A client-side `GoogleCloudError` with its HTTP status (`e.code`). -/
structure GcsError where
  code : Nat
deriving DecidableEq

def blob_lookup (store : GcsStore) (bucket path : Str) : Option Data :=
  (store.find? fun e => e.1 == (bucket, path)).map fun e => e.2

/-- Modelled from the documented behavior of the external
`google-cloud-storage` client: `Blob.download_as_bytes` raises `NotFound`
(a `GoogleCloudError` with code 404) when the object does not exist. -/
def download_as_bytes (store : GcsStore) (bucket path : Str) :
    Except GcsError Data :=
  match blob_lookup store bucket path with
  | some data => .ok data
  | none => .error (GcsError.mk 404)

/-- Modelled from the documented behavior of the external client:
`Bucket.delete_blob` raises `NotFound` (404) when the object does not
exist, and removes the object otherwise. -/
def delete_blob (store : GcsStore) (bucket path : Str) :
    Except GcsError GcsStore :=
  match blob_lookup store bucket path with
  | some _ => .ok (store.filter fun e => !(e.1 == (bucket, path)))
  | none => .error (GcsError.mk 404)

/-- Errors surfaced by storage operations to their callers. -/
inductive StorageError where
  | valueError
  | gcs (e : GcsError)
  | bucketNotFound (bucket : Str)
deriving DecidableEq

/-- Source `GcsProvider.read_data` (storage.py lines 356-370): a 404
`GoogleCloudError` becomes the not-found sentinel `None`; any other client
error is logged and re-raised. -/
def GcsProvider.read_data (store : GcsStore) (remote_path : Str) :
    Except StorageError (Option Data) :=
  match get_bucket_name_and_path remote_path with
  | .error _ => .error .valueError
  | .ok (bucket_name, path) =>
    match download_as_bytes store bucket_name path with
    | .ok data => .ok (some data)
    | .error e => if e.code = 404 then .ok none else .error (.gcs e)

/-- Source `GcsProvider.delete` (storage.py lines 427-439):
`bucket.delete_blob(path)` is attempted; every `GoogleCloudError` —
including the `NotFound` the client raises for a missing object — is
logged and re-raised; `True` is returned only when deletion succeeded. -/
def GcsProvider.delete (store : GcsStore) (remote_path : Str) :
    Except StorageError (Bool × GcsStore) :=
  match get_bucket_name_and_path remote_path with
  | .error _ => .error .valueError
  | .ok (bucket_name, path) =>
    match delete_blob store bucket_name path with
    | .ok store' => .ok (true, store')
    | .error e => .error (.gcs e)

/-- Filesystem paths as segment lists (`os.path.join` glues segments). -/
abbrev FsPath := List Str

/-- Local filesystem state: existing directories, and files with their
contents. -/
structure FS where
  dirs : List FsPath
  files : List (FsPath × Data)
deriving DecidableEq

/-- The provider object with its root `self.filesystem_dir`. -/
structure FileSystemProvider where
  filesystem_dir : Str
deriving DecidableEq

def OBJECTS_DIR : Str := "objects".toList

def METADATA_DIR : Str := "metadata".toList

def splitAllAux (sep : Char) : Str → Str → List Str
  | [], acc => [acc.reverse]
  | c :: rest, acc =>
    if c = sep then acc.reverse :: splitAllAux sep rest []
    else splitAllAux sep rest (c :: acc)

/-- Python `s.split(sep)`: full split into segments. -/
def splitAll (sep : Char) (s : Str) : List Str := splitAllAux sep s []

/-- Source `FileSystemProvider._fs_bucket_path`. -/
def _fs_bucket_path (p : FileSystemProvider) (bucket : Str) : FsPath :=
  [p.filesystem_dir, bucket]

/-- Source `FileSystemProvider._fs_path`:
`os.path.join(self._fs_bucket_path(bucket), directory, path)`. -/
def _fs_path (p : FileSystemProvider) (bucket path directory : Str) : FsPath :=
  p.filesystem_dir :: bucket :: directory :: splitAll '/' path

/-- Nonempty prefixes of a directory path: `os.makedirs`-style creation
materialises the directory and every ancestor. -/
def dirPrefixes (d : FsPath) : List FsPath :=
  (List.range d.length).map fun i => d.take (i + 1)

/-- Modelled from the spec: `shell.create_directory(...,
create_intermediates=True)` (module `shell` is outside the excerpt); per
the spec "all intermediate object subdirectories are created on demand",
the directory and all its ancestors are created. -/
def create_directory (fs : FS) (d : FsPath) : FS :=
  FS.mk (dirPrefixes d ++ fs.dirs) fs.files

/-- Source `FileSystemProvider.convert_path` (lines 558-561). -/
def convert_path (p : FileSystemProvider) (remote_path directory : Str) :
    Except StorageError FsPath :=
  match get_bucket_name_and_path remote_path with
  | .error _ => .error .valueError
  | .ok (bucket, path) => .ok (_fs_path p bucket path directory)

/-- Source `FileSystemProvider.convert_path_for_write` (lines 563-575):
raises `RuntimeError('Bucket ... does not exist.')` — the error the spec
calls `BucketNotFoundError` — when the bucket directory does not exist,
before any mutation; otherwise creates every intermediate directory of the
target's parent.  State is threaded explicitly: the second component is
the filesystem after the call. -/
def convert_path_for_write (p : FileSystemProvider)
    (remote_path directory : Str) (fs : FS) :
    Except StorageError FsPath × FS :=
  match get_bucket_name_and_path remote_path with
  | .error _ => (.error .valueError, fs)
  | .ok (bucket, path) =>
    if _fs_bucket_path p bucket ∈ fs.dirs then
      (.ok (_fs_path p bucket path directory),
        create_directory fs (_fs_path p bucket path directory).dropLast)
    else (.error (.bucketNotFound bucket), fs)

/-- Python `open(fs_path, 'wb')` followed by a full write: replaces the
contents stored at the path. -/
def fs_write_file (fs : FS) (path : FsPath) (data : Data) : FS :=
  FS.mk fs.dirs ((path, data) :: fs.files.filter fun e => !(e.1 == path))

def fs_read_file (fs : FS) (path : FsPath) : Option Data :=
  (fs.files.find? fun e => e.1 == path).map fun e => e.2

/-- Source `FileSystemProvider._write_metadata` (lines 548-556): no-op for
empty metadata, else writes the sidecar under `METADATA_DIR` through
`convert_path_for_write`. -/
def _write_metadata (p : FileSystemProvider) (remote_path : Str)
    (metadata : Option Data) (fs : FS) : Except StorageError Unit × FS :=
  match metadata with
  | none => (.ok (), fs)
  | some m =>
    match convert_path_for_write p remote_path METADATA_DIR fs with
    | (.error e, fs') => (.error e, fs')
    | (.ok mpath, fs') => (.ok (), fs_write_file fs' mpath m)

/-- Source `FileSystemProvider.write_data` (lines 662-675). -/
def FileSystemProvider.write_data (p : FileSystemProvider) (data : Data)
    (remote_path : Str) (metadata : Option Data) (fs : FS) :
    Except StorageError Bool × FS :=
  match convert_path_for_write p remote_path OBJECTS_DIR fs with
  | (.error e, fs') => (.error e, fs')
  | (.ok fs_path, fs') =>
    match _write_metadata p remote_path metadata
        (fs_write_file fs' fs_path data) with
    | (.error e, fs2) => (.error e, fs2)
    | (.ok _, fs2) => (.ok true, fs2)

/-- Source `FileSystemProvider.copy_file_to` (lines 633-645), file-handle
branch (`shutil.copyfileobj`): `data` is the local source's bytes. -/
def FileSystemProvider.copy_file_to (p : FileSystemProvider) (data : Data)
    (remote_path : Str) (metadata : Option Data) (fs : FS) :
    Except StorageError Bool × FS :=
  match convert_path_for_write p remote_path OBJECTS_DIR fs with
  | (.error e, fs') => (.error e, fs')
  | (.ok fs_path, fs') =>
    match _write_metadata p remote_path metadata
        (fs_write_file fs' fs_path data) with
    | (.error e, fs2) => (.error e, fs2)
    | (.ok _, fs2) => (.ok true, fs2)

/-- Source `FileSystemProvider.write_stream` (lines 677-688): writes the
concatenation of the stream's chunks. -/
def FileSystemProvider.write_stream (p : FileSystemProvider)
    (stream : List Data) (remote_path : Str) (metadata : Option Data)
    (fs : FS) : Except StorageError Bool × FS :=
  match convert_path_for_write p remote_path OBJECTS_DIR fs with
  | (.error e, fs') => (.error e, fs')
  | (.ok fs_path, fs') =>
    match _write_metadata p remote_path metadata
        (fs_write_file fs' fs_path stream.flatten) with
    | (.error e, fs2) => (.error e, fs2)
    | (.ok _, fs2) => (.ok true, fs2)

/-- Source `FileSystemProvider.read_data` (lines 653-660): the
`os.path.exists` probe makes a missing object the `None` sentinel. -/
def FileSystemProvider.read_data (p : FileSystemProvider)
    (remote_path : Str) (fs : FS) : Except StorageError (Option Data) :=
  match convert_path p remote_path OBJECTS_DIR with
  | .error e => .error e
  | .ok fs_path =>
    match fs_read_file fs fs_path with
    | none => .ok none
    | some data => .ok (some data)

/-- Modelled from the spec: `shell.remove_file` (module `shell` is outside
the excerpt); per the spec's local-backend notes, "absence of either is
not an error" — the file is removed when present, silently skipped when
absent. -/
def remove_file (fs : FS) (path : FsPath) : FS :=
  FS.mk fs.dirs (fs.files.filter fun e => !(e.1 == path))

/-- Source `FileSystemProvider.delete` (lines 698-705): removes the object
file and its metadata sidecar and returns `True` unconditionally. -/
def FileSystemProvider.delete (p : FileSystemProvider) (remote_path : Str)
    (fs : FS) : Except StorageError (Bool × FS) :=
  match convert_path p remote_path OBJECTS_DIR with
  | .error e => .error e
  | .ok opath =>
    match convert_path p remote_path METADATA_DIR with
    | .error e => .error e
    | .ok mpath => .ok (true, remove_file (remove_file fs opath) mpath)

/-- C4 counterexample: deleting a nonexistent object on the remote backend
does not return success — `GcsProvider.delete` re-raises the client's
`NotFound` (404) instead of returning `True`. -/
theorem claim_C4_counterexample :
    GcsProvider.delete [] ['g', 's', ':', '/', '/', 'b', '/', 'o'] =
      .error (.gcs (GcsError.mk 404)) := rfl

/-- C4 (amended): deleting a nonexistent object is a no-op success on the
local-filesystem backend only; the remote backend's delete propagates the
backend's not-found (404) error after logging, rather than returning
`True`. -/
theorem claim_C4 :
    (∀ (p : FileSystemProvider) (fs : FS) (remote_path bucket path : Str),
      get_bucket_name_and_path remote_path = .ok (bucket, path) →
      ∃ fs', FileSystemProvider.delete p remote_path fs = .ok (true, fs')) ∧
    (∀ (store : GcsStore) (remote_path bucket path : Str),
      get_bucket_name_and_path remote_path = .ok (bucket, path) →
      blob_lookup store bucket path = none →
      GcsProvider.delete store remote_path =
        .error (.gcs (GcsError.mk 404))) := by
  constructor
  · intro p fs remote_path bucket path h
    exact ⟨remove_file (remove_file fs (_fs_path p bucket path OBJECTS_DIR))
        (_fs_path p bucket path METADATA_DIR),
      by simp [FileSystemProvider.delete, convert_path, h]⟩
  · intro store remote_path bucket path h hnone
    simp [GcsProvider.delete, h, delete_blob, hnone]

theorem claim_C4_witness :
    (∃ fs', FileSystemProvider.delete (FileSystemProvider.mk ['r'])
        ['g', 's', ':', '/', '/', 'b', '/', 'o'] (FS.mk [] []) =
      .ok (true, fs')) ∧
    GcsProvider.delete [((['x'], ['y']), ['d'])]
        ['g', 's', ':', '/', '/', 'b', '/', 'o'] =
      .error (.gcs (GcsError.mk 404)) :=
  ⟨claim_C4.1 (FileSystemProvider.mk ['r']) (FS.mk [] []) _ ['b'] ['o'] rfl,
    claim_C4.2 [((['x'], ['y']), ['d'])] _ ['b'] ['o'] rfl rfl⟩

/-- C5: on both backends, reading a nonexistent object returns the
not-found sentinel `None` rather than raising, and reading an existing
object returns its bytes. -/
theorem claim_C5 :
    ∀ (store : GcsStore) (p : FileSystemProvider) (fs : FS)
      (remote_path bucket path : Str),
      get_bucket_name_and_path remote_path = .ok (bucket, path) →
      ((blob_lookup store bucket path = none →
        GcsProvider.read_data store remote_path = .ok none) ∧
       (∀ data, blob_lookup store bucket path = some data →
        GcsProvider.read_data store remote_path = .ok (some data)) ∧
       (fs_read_file fs (_fs_path p bucket path OBJECTS_DIR) = none →
        FileSystemProvider.read_data p remote_path fs = .ok none) ∧
       (∀ data,
        fs_read_file fs (_fs_path p bucket path OBJECTS_DIR) = some data →
        FileSystemProvider.read_data p remote_path fs = .ok (some data))) := by
  intro store p fs remote_path bucket path h
  refine ⟨?_, ?_, ?_, ?_⟩
  · intro hnone
    simp [GcsProvider.read_data, h, download_as_bytes, hnone]
  · intro data hsome
    simp [GcsProvider.read_data, h, download_as_bytes, hsome]
  · intro hnone
    simp [FileSystemProvider.read_data, convert_path, h, hnone]
  · intro data hsome
    simp [FileSystemProvider.read_data, convert_path, h, hsome]

theorem claim_C5_witness :
    GcsProvider.read_data [((['b'], ['o']), ['D'])]
        ['g', 's', ':', '/', '/', 'b', '/', 'x'] = .ok none ∧
    GcsProvider.read_data [((['b'], ['o']), ['D'])]
        ['g', 's', ':', '/', '/', 'b', '/', 'o'] = .ok (some ['D']) ∧
    FileSystemProvider.read_data (FileSystemProvider.mk ['r'])
        ['g', 's', ':', '/', '/', 'b', '/', 'o'] (FS.mk [] []) = .ok none :=
  ⟨(claim_C5 [((['b'], ['o']), ['D'])] (FileSystemProvider.mk ['r'])
      (FS.mk [] []) ['g', 's', ':', '/', '/', 'b', '/', 'x']
      ['b'] ['x'] rfl).1 rfl,
    ((claim_C5 [((['b'], ['o']), ['D'])] (FileSystemProvider.mk ['r'])
      (FS.mk [] []) ['g', 's', ':', '/', '/', 'b', '/', 'o']
      ['b'] ['o'] rfl).2.1) ['D'] rfl,
    ((claim_C5 [] (FileSystemProvider.mk ['r'])
      (FS.mk [] []) ['g', 's', ':', '/', '/', 'b', '/', 'o']
      ['b'] ['o'] rfl).2.2.1) rfl⟩

theorem find?_filter_key_ne (files : List (FsPath × Data)) (q path : FsPath)
    (hne : ¬ q = path) :
    (files.filter fun e => !(e.1 == q)).find? (fun e => e.1 == path) =
      files.find? (fun e => e.1 == path) := by
  induction files with
  | nil => rfl
  | cons e rest ih =>
    by_cases he : e.1 = path
    · have hne' : ¬ path = q := fun hc => hne hc.symm
      have hbq : (e.1 == q) = false := by simp [he, hne']
      have hbp : (e.1 == path) = true := by simp [he]
      simp [List.filter_cons, hbq, List.find?_cons, hbp]
    · have hbp : (e.1 == path) = false := by simp [he]
      by_cases hq : e.1 = q
      · have hbq : (e.1 == q) = true := by simp [hq]
        simp [List.filter_cons, hbq, List.find?_cons, hbp, ih]
      · have hbq : (e.1 == q) = false := by simp [hq]
        simp [List.filter_cons, hbq, List.find?_cons, hbp, ih]

theorem fs_read_write_same (fs : FS) (path : FsPath) (data : Data) :
    fs_read_file (fs_write_file fs path data) path = some data := by
  simp [fs_read_file, fs_write_file, List.find?_cons]

theorem fs_read_write_ne (fs : FS) (q path : FsPath) (data : Data)
    (hne : ¬ q = path) :
    fs_read_file (fs_write_file fs q data) path = fs_read_file fs path := by
  have hb : (q == path) = false := by simp [hne]
  simp [fs_read_file, fs_write_file, List.find?_cons, hb,
    find?_filter_key_ne fs.files q path hne]

theorem meta_ne_obj (p : FileSystemProvider) (bucket path : Str) :
    ¬ _fs_path p bucket path METADATA_DIR =
        _fs_path p bucket path OBJECTS_DIR := by
  intro h
  simp only [_fs_path, List.cons.injEq] at h
  exact absurd h.2.2.1 (by decide)

/-- C7: on the local-filesystem backend, every write operation targeting a
path whose bucket directory does not exist fails with the
bucket-not-found error before any mutation (the filesystem is returned
unchanged, the bucket is not created); when the bucket directory exists,
the write succeeds, the object's bytes are stored, and every intermediate
directory of the object path has been created. -/
theorem claim_C7 :
    ∀ (p : FileSystemProvider) (fs : FS) (data : Data) (stream : List Data)
      (metadata : Option Data) (remote_path bucket path : Str),
      get_bucket_name_and_path remote_path = .ok (bucket, path) →
      ((_fs_bucket_path p bucket ∉ fs.dirs →
        convert_path_for_write p remote_path OBJECTS_DIR fs =
          (.error (.bucketNotFound bucket), fs) ∧
        FileSystemProvider.write_data p data remote_path metadata fs =
          (.error (.bucketNotFound bucket), fs) ∧
        FileSystemProvider.copy_file_to p data remote_path metadata fs =
          (.error (.bucketNotFound bucket), fs) ∧
        FileSystemProvider.write_stream p stream remote_path metadata fs =
          (.error (.bucketNotFound bucket), fs)) ∧
       (_fs_bucket_path p bucket ∈ fs.dirs →
        ∃ fs', FileSystemProvider.write_data p data remote_path metadata fs =
            (.ok true, fs') ∧
          fs_read_file fs' (_fs_path p bucket path OBJECTS_DIR) =
            some data ∧
          ∀ d ∈ dirPrefixes ((_fs_path p bucket path OBJECTS_DIR).dropLast),
            d ∈ fs'.dirs)) := by
  intro p fs data stream metadata remote_path bucket path hparse
  constructor
  · intro hmem
    have hcw : convert_path_for_write p remote_path OBJECTS_DIR fs =
        (.error (.bucketNotFound bucket), fs) := by
      simp [convert_path_for_write, hparse, hmem]
    refine ⟨hcw, ?_, ?_, ?_⟩
    · simp [FileSystemProvider.write_data, hcw]
    · simp [FileSystemProvider.copy_file_to, hcw]
    · simp [FileSystemProvider.write_stream, hcw]
  · intro hmem
    have hcw : convert_path_for_write p remote_path OBJECTS_DIR fs =
        (.ok (_fs_path p bucket path OBJECTS_DIR),
          create_directory fs (_fs_path p bucket path OBJECTS_DIR).dropLast) := by
      simp [convert_path_for_write, hparse, hmem]
    cases metadata with
    | none =>
      refine ⟨fs_write_file
          (create_directory fs (_fs_path p bucket path OBJECTS_DIR).dropLast)
          (_fs_path p bucket path OBJECTS_DIR) data, ?_, ?_, ?_⟩
      · simp [FileSystemProvider.write_data, hcw, _write_metadata]
      · exact fs_read_write_same _ _ _
      · intro d hd
        exact List.mem_append_left _ hd
    | some m =>
      have hmem2 : _fs_bucket_path p bucket ∈
          (fs_write_file (create_directory fs
              (_fs_path p bucket path OBJECTS_DIR).dropLast)
            (_fs_path p bucket path OBJECTS_DIR) data).dirs :=
        List.mem_append_right _ hmem
      have hcw2 : convert_path_for_write p remote_path METADATA_DIR
          (fs_write_file (create_directory fs
              (_fs_path p bucket path OBJECTS_DIR).dropLast)
            (_fs_path p bucket path OBJECTS_DIR) data) =
          (.ok (_fs_path p bucket path METADATA_DIR),
            create_directory (fs_write_file (create_directory fs
                (_fs_path p bucket path OBJECTS_DIR).dropLast)
              (_fs_path p bucket path OBJECTS_DIR) data)
              (_fs_path p bucket path METADATA_DIR).dropLast) := by
        simp [convert_path_for_write, hparse, hmem2]
      refine ⟨fs_write_file
          (create_directory (fs_write_file (create_directory fs
              (_fs_path p bucket path OBJECTS_DIR).dropLast)
            (_fs_path p bucket path OBJECTS_DIR) data)
            (_fs_path p bucket path METADATA_DIR).dropLast)
          (_fs_path p bucket path METADATA_DIR) m, ?_, ?_, ?_⟩
      · simp [FileSystemProvider.write_data, hcw, _write_metadata, hcw2]
      · rw [fs_read_write_ne _ _ _ _ (meta_ne_obj p bucket path)]
        exact fs_read_write_same _ _ _
      · intro d hd
        exact List.mem_append_right _ (List.mem_append_left _ hd)

def witP : FileSystemProvider := FileSystemProvider.mk ['r']

def witPath : Str := ['g', 's', ':', '/', '/', 'b', '/', 'o']

def witFS : FS := FS.mk [[['r'], ['b']]] []

theorem claim_C7_witness :
    FileSystemProvider.write_data witP ['D'] witPath none (FS.mk [] []) =
      (.error (.bucketNotFound ['b']), FS.mk [] []) ∧
    (∃ fs', FileSystemProvider.write_data witP ['D'] witPath none witFS =
        (.ok true, fs') ∧
      fs_read_file fs' (_fs_path witP ['b'] ['o'] OBJECTS_DIR) =
        some ['D'] ∧
      ∀ d ∈ dirPrefixes ((_fs_path witP ['b'] ['o'] OBJECTS_DIR).dropLast),
        d ∈ fs'.dirs) :=
  ⟨((claim_C7 witP (FS.mk [] []) ['D'] [] none witPath ['b'] ['o']
      rfl).1 (by decide)).2.1,
    (claim_C7 witP witFS ['D'] [] none witPath ['b'] ['o'] rfl).2
      (by decide)⟩

/-- Outcome of one run of the `parallel_map` generator: all results
yielded, or a wait round completed nothing so the in-flight calls were
cancelled and `TimeoutError` raised, or the supplied round schedule was
too short to drive the batch to completion (`fuelOut`, unreachable under
the hypotheses of the theorem below). -/
inductive PMapOutcome where
  | done (results : List Nat)
  | timeoutError (cancelled : List Nat)
  | fuelOut
deriving DecidableEq

/-- Source `parallel_map` (storage.py lines 1445-1462), with the thread
pool shallow-embedded: `calls` is the pending futures list (ids), `res`
each future's result, and `rounds` records for each iteration of the
`while calls:` loop which futures `futures.wait(calls, timeout=120,
return_when=FIRST_COMPLETED)` reports finished within that round's
wall-clock timeout, in the order the `for finished_call in finished_calls`
loop visits them.  An empty round is the timeout elapsing with zero
completions: the source then cancels every in-flight call and raises
`TimeoutError`.  Otherwise each finished call is removed from `calls` and
its result yielded. -/
def parallel_map (res : Nat → Nat) : List (List Nat) → List Nat → PMapOutcome
  | _, [] => .done []
  | [], _ :: _ => .fuelOut
  | finished_calls :: rounds, c :: cs =>
    if finished_calls.isEmpty then .timeoutError (c :: cs)
    else
      match parallel_map res rounds
          (finished_calls.foldl List.erase (c :: cs)) with
      | .done results => .done (finished_calls.map res ++ results)
      | other => other

/-- The calls still in flight after the rounds in `pre` have each removed
their finished futures. -/
def remaining (calls : List Nat) (pre : List (List Nat)) : List Nat :=
  pre.foldl (fun cs finished_calls => finished_calls.foldl List.erase cs) calls

theorem foldl_erase_sublist (f : List Nat) :
    ∀ cs : List Nat, (f.foldl List.erase cs).Sublist cs := by
  induction f with
  | nil => intro cs; exact List.Sublist.refl cs
  | cons a f ih =>
    intro cs
    exact (ih (cs.erase a)).trans (List.erase_sublist a cs)

theorem remaining_sublist (pre : List (List Nat)) :
    ∀ calls : List Nat, (remaining calls pre).Sublist calls := by
  induction pre with
  | nil => intro calls; exact List.Sublist.refl calls
  | cons f pre ih =>
    intro calls
    exact (ih (f.foldl List.erase calls)).trans (foldl_erase_sublist f calls)

theorem foldl_erase_perm {p q : List Nat} (f : List Nat) (h : p.Perm q) :
    (f.foldl List.erase p).Perm (f.foldl List.erase q) := by
  induction f generalizing p q with
  | nil => exact h
  | cons a f ih => exact ih (h.erase a)

theorem foldl_erase_append (f t : List Nat) :
    f.foldl List.erase (f ++ t) = t := by
  induction f with
  | nil => rfl
  | cons a f ih =>
    show f.foldl List.erase ((a :: (f ++ t)).erase a) = t
    rw [List.erase_cons_head]
    exact ih

theorem parallel_map_timeout_aux (res : Nat → Nat) (rest : List (List Nat)) :
    ∀ (pre : List (List Nat)) (calls : List Nat),
      (∀ r ∈ pre, r ≠ []) → remaining calls pre ≠ [] →
      parallel_map res (pre ++ [] :: rest) calls =
        .timeoutError (remaining calls pre) := by
  intro pre
  induction pre with
  | nil =>
    intro calls _ hne
    cases calls with
    | nil => exact absurd rfl hne
    | cons c cs => rfl
  | cons f pre ih =>
    intro calls hall hne
    cases calls with
    | nil => exact absurd (List.sublist_nil.mp (remaining_sublist _ _)) hne
    | cons c cs =>
      have hf : f ≠ [] := hall f (List.mem_cons_self f pre)
      have hfe : f.isEmpty = false := by
        cases f with
        | nil => exact absurd rfl hf
        | cons x xs => rfl
      have hrec := ih (f.foldl List.erase (c :: cs))
        (fun r hr => hall r (List.mem_cons_of_mem f hr)) hne
      show (if f.isEmpty then PMapOutcome.timeoutError (c :: cs)
        else match parallel_map res (pre ++ [] :: rest)
            (f.foldl List.erase (c :: cs)) with
          | .done results => .done (f.map res ++ results)
          | other => other) = _
      rw [hfe, hrec]
      rfl

theorem parallel_map_done_aux (res : Nat → Nat) :
    ∀ (rounds : List (List Nat)) (calls : List Nat),
      calls.Nodup → rounds.flatten.Perm calls → (∀ r ∈ rounds, r ≠ []) →
      parallel_map res rounds calls = .done (rounds.flatten.map res) := by
  intro rounds
  induction rounds with
  | nil =>
    intro calls _ hperm _
    have hc : calls = [] := hperm.symm.eq_nil
    subst hc
    rfl
  | cons f rounds ih =>
    intro calls hnodup hperm hall
    have hf : f ≠ [] := hall f (List.mem_cons_self f rounds)
    have hfe : f.isEmpty = false := by
      cases f with
      | nil => exact absurd rfl hf
      | cons x xs => rfl
    have hflat : (f ++ rounds.flatten).Perm calls := by
      simpa using hperm
    have hcalls : calls ≠ [] := by
      intro hc
      subst hc
      exact hf (List.append_eq_nil.mp hflat.eq_nil).1
    cases calls with
    | nil => exact absurd rfl hcalls
    | cons c cs =>
      have hperm' : rounds.flatten.Perm (f.foldl List.erase (c :: cs)) := by
        have h1 : (f.foldl List.erase (c :: cs)).Perm
            (f.foldl List.erase (f ++ rounds.flatten)) :=
          foldl_erase_perm f hflat.symm
        rw [foldl_erase_append] at h1
        exact h1.symm
      have hnodup' : (f.foldl List.erase (c :: cs)).Nodup :=
        List.Nodup.sublist (foldl_erase_sublist f (c :: cs)) hnodup
      have hrec := ih (f.foldl List.erase (c :: cs)) hnodup' hperm'
        (fun r hr => hall r (List.mem_cons_of_mem f hr))
      show (if f.isEmpty then PMapOutcome.timeoutError (c :: cs)
        else match parallel_map res rounds
            (f.foldl List.erase (c :: cs)) with
          | .done results => .done (f.map res ++ results)
          | other => other) = _
      rw [hfe, hrec]
      simp

/-- C9: if a wait-round's wall-clock timeout elapses with zero in-flight
items completing, `parallel_map` cancels every in-flight item and raises
`TimeoutError`; if at least one item completes within every round's
timeout (and the rounds drive the whole batch), it yields each item's
result and never raises that timeout. -/
theorem claim_C9 :
    ∀ (res : Nat → Nat) (pre rest rounds : List (List Nat))
      (calls : List Nat),
      ((∀ r ∈ pre, r ≠ []) → remaining calls pre ≠ [] →
        parallel_map res (pre ++ [] :: rest) calls =
          .timeoutError (remaining calls pre)) ∧
      (calls.Nodup → rounds.flatten.Perm calls → (∀ r ∈ rounds, r ≠ []) →
        parallel_map res rounds calls = .done (rounds.flatten.map res)) :=
  fun res pre rest rounds calls =>
    ⟨parallel_map_timeout_aux res rest pre calls,
      parallel_map_done_aux res rounds calls⟩

theorem claim_C9_witness :
    parallel_map (fun n => n * 10) [[1], []] [1, 2, 3] =
      .timeoutError [2, 3] ∧
    parallel_map (fun n => n * 10) [[2], [1, 3]] [1, 2, 3] =
      .done [20, 10, 30] := by
  have h := claim_C9 (fun n => n * 10) [[1]] [] [[2], [1, 3]] [1, 2, 3]
  constructor
  · have ht := h.1 (by decide) (by decide)
    simpa using ht
  · have hd := h.2 (by decide) (by decide) (by decide)
    simpa using hd

end Storage
